import Mathlib

/-!
Verification development for the MetaMCP proxy backend.

Shallow embedding of the core components of the repository:
the tool-response cache (`apps/backend/src/lib/caching/tool-response-cache.ts`),
the per-API-key connection pool (`apps/backend/src/lib/metamcp/api-key-connection-pool.ts`),
the session/transport router (`apps/backend/src/routers/mcp-proxy/metamcp.ts`),
the log-filtering stdio wrapper (`apps/backend/src/lib/stdio-transport/log-filtering-stdio-wrapper.ts`),
and the list/call tool aggregation handlers.

JavaScript `Map` objects are embedded as association lists with
lookup = first match, set = replace-first-or-append, delete = remove the key.
Times are integers (milliseconds), as produced by `Date.now()`.
-/

namespace Assoc

/-- Lookup in an association list: first entry whose key matches (JS `Map.get`). -/
def find? {β : Type} (k : String) : List (String × β) → Option β
  | [] => none
  | (k', v) :: rest => if k' = k then some v else find? k rest

/-- JS `Map.set`: replace the value at an existing key in place, else append. -/
def set {β : Type} (k : String) (v : β) : List (String × β) → List (String × β)
  | [] => [(k, v)]
  | (k', v') :: rest => if k' = k then (k, v) :: rest else (k', v') :: set k v rest

/-- JS `Map.delete`: remove the entries with the given key. -/
def erase {β : Type} (k : String) (l : List (String × β)) : List (String × β) :=
  l.filter (fun p => p.1 ≠ k)

/-- Modify the value stored at a key, if present. -/
def modify {β : Type} (k : String) (f : β → β) : List (String × β) → List (String × β)
  | [] => []
  | (k', v') :: rest => if k' = k then (k, f v') :: rest else (k', v') :: modify k f rest

end Assoc

namespace Cache

/-- A JSON value, the embedding of the `any`-typed argument values handled by
`JSON.stringify` in `ToolResponseCache.generateCacheKey`. Objects keep their
fields in insertion order, as JavaScript objects do. -/
inductive JVal where
  | null : JVal
  | bool (b : Bool) : JVal
  | num (n : Int) : JVal
  | str (s : String) : JVal
  | arr (elems : List JVal) : JVal
  | obj (fields : List (String × JVal)) : JVal

/-- JSON string quoting as performed by `JSON.stringify` (escaping `"` and `\`;
control-character escapes are irrelevant to the inputs considered here). -/
def quoteJSONString (s : String) : String :=
  "\"" ++ String.mk (s.data.flatMap (fun c =>
    if c = '"' then ['\\', '"']
    else if c = '\\' then ['\\', '\\']
    else [c])) ++ "\""

/-- Walk the PropertyList over the already-serialized fields of an object:
a key present contributes one `"key":value` member, in PropertyList order;
a key absent from the object is skipped. -/
def selectMembers (keyList : List String) (serialized : List (String × String)) : List String :=
  keyList.filterMap (fun k =>
    (Assoc.find? k serialized).map (fun s => quoteJSONString k ++ ":" ++ s))

mutual

/-- ECMA-262 SerializeJSONProperty with a PropertyList `keyList`:
the replacer-array form of `JSON.stringify(value, keys)`.  Objects emit only
the properties named in `keyList`, in `keyList` order, at every nesting level;
arrays serialize all their elements.  (The embedding serializes every field
and then selects by the PropertyList; serialization is pure, so this equals
the ECMA algorithm, which serializes only the selected fields.) -/
def serializeJSON (keyList : List String) : JVal → String
  | .null => "null"
  | .bool b => if b then "true" else "false"
  | .num n => toString n
  | .str s => quoteJSONString s
  | .arr elems => "[" ++ String.intercalate "," (serializeJSONList keyList elems) ++ "]"
  | .obj fields => "\x7b" ++ String.intercalate "," (selectMembers keyList (serializeJSONFields keyList fields)) ++ "\x7d"

def serializeJSONList (keyList : List String) : List JVal → List String
  | [] => []
  | v :: rest => serializeJSON keyList v :: serializeJSONList keyList rest

def serializeJSONFields (keyList : List String) : List (String × JVal) → List (String × String)
  | [] => []
  | (k, v) :: rest => (k, serializeJSON keyList v) :: serializeJSONFields keyList rest

end

/-- The sorted key list `Object.keys(key.parameters).sort()` (default JS sort:
lexicographic string comparison). -/
def sortedKeys (fields : List (String × JVal)) : List String :=
  (fields.map Prod.fst).insertionSort (· ≤ ·)

/-- Serialize an arguments object the way `generateCacheKey` does:
`JSON.stringify(key.parameters, Object.keys(key.parameters).sort())`. -/
def paramString (fields : List (String × JVal)) : String :=
  serializeJSON (sortedKeys fields) (.obj fields)

/-- UTF-8 bytes of a string (`Buffer.from(paramStr)`); all inputs considered
here are ASCII, where the byte sequence is the code-point sequence. -/
def utf8Bytes (s : String) : List Nat :=
  s.data.map Char.toNat

/-- The base64 alphabet used by `Buffer.toString("base64")`. -/
def base64Alphabet : List Char :=
  "ABCDEFGHIJKLMNOPQRSTUVWXYZabcdefghijklmnopqrstuvwxyz0123456789+/".data

/-- One base64 output character. -/
def b64Char (i : Nat) : Char :=
  base64Alphabet.getD i 'A'

/-- Standard base64 encoding of a byte list, with padding. -/
def base64Encode : List Nat → List Char
  | [] => []
  | [b0] => [b64Char (b0 / 4), b64Char (b0 % 4 * 16), '=', '=']
  | [b0, b1] => [b64Char (b0 / 4), b64Char (b0 % 4 * 16 + b1 / 16), b64Char (b1 % 16 * 4), '=']
  | b0 :: b1 :: b2 :: rest =>
    b64Char (b0 / 4) :: b64Char (b0 % 4 * 16 + b1 / 16) ::
    b64Char (b1 % 16 * 4 + b2 / 64) :: b64Char (b2 % 64) :: base64Encode rest

/-- The key of `ToolResponseCache` lookups (`ToolCacheKey` in the source). -/
structure ToolCacheKey where
  toolName : String
  serverUuid : String
  parameters : List (String × JVal)
  namespaceUuid : Option String

/-- Embedding of `ToolResponseCache.generateCacheKey`: join server uuid, tool
name, namespace (or `"default"`) and the first 16 base64 characters of the
serialized parameters with `:`. -/
def generateCacheKey (key : ToolCacheKey) : String :=
  let paramStr := paramString key.parameters
  String.intercalate ":"
    [key.serverUuid, key.toolName, key.namespaceUuid.getD "default",
     String.mk ((base64Encode (utf8Bytes paramStr)).take 16)]

/-- The per-tool TTL table of `ToolResponseCache.getTtlForTool`
(`ttlStrategies` in the source, values in seconds). -/
def ttlStrategies : List (String × Int) :=
  [("githubGetFileContent", 600),
   ("get-library-docs", 1800),
   ("sql_reference", 3600),
   ("get_logfire_records_schema", 1800),
   ("arbitrary_query", 60),
   ("list_tasks", 30),
   ("githubSearchCode", 300),
   ("get_current_time", 10),
   ("execute_task", 5),
   ("create-secret", 0),
   ("update-secret", 0),
   ("delete-secret", 0)]

/-- Embedding of `ToolResponseCache.getTtlForTool`:
`return ttlStrategies[toolName] || this.defaultTtlSeconds;`.
The JS `||` treats the value `0` as falsy, so a `0` entry in the table
falls back to the default TTL. -/
def getTtlForTool (defaultTtlSeconds : Int) (toolName : String) : Int :=
  match Assoc.find? toolName ttlStrategies with
  | some t => if t = 0 then defaultTtlSeconds else t
  | none => defaultTtlSeconds

/-- A stored cache entry (`CachedToolResponse` in the source):
`response` payload, `cachedAt` in ms, `ttl` in seconds, and a hit counter. -/
structure CachedToolResponse where
  response : String
  cachedAt : Int
  ttl : Int
  hitCount : Nat
deriving DecidableEq

/-- Cache statistics (`this.stats`). -/
structure CacheStats where
  hits : Nat
  misses : Nat
  sets : Nat
  evictions : Nat
deriving DecidableEq

/-- State of a `ToolResponseCache` instance.  `memoryCache` is the L1 map.
`redis` is the optional L2 store; Redis `setex` expiry is modelled by keeping
the stored entry and treating it as absent once `ttl` seconds have elapsed
since `cachedAt` (entries are only ever stored with `setex ttl` at the moment
`cachedAt` is taken). -/
structure CacheState where
  memoryCache : List (String × CachedToolResponse)
  redis : Option (List (String × CachedToolResponse))
  stats : CacheStats
  maxMemoryEntries : Nat
  defaultTtlSeconds : Int

/-- Read of the L2 store at time `now`: the value survives until its TTL has
elapsed. -/
def redisRead (store : List (String × CachedToolResponse)) (cacheKey : String) (now : Int) :
    Option CachedToolResponse :=
  match Assoc.find? cacheKey store with
  | some e => if now - e.cachedAt < e.ttl * 1000 then some e else none
  | none => none

/-- Embedding of `ToolResponseCache.get`: try L1 (hit iff
`now - cachedAt < ttl * 1000`), then L2 (promoting a hit into L1),
otherwise record a miss. Returns the response (or `none`) and the
updated cache state. -/
def get (c : CacheState) (key : ToolCacheKey) (now : Int) :
    Option String × CacheState :=
  match Assoc.find? (generateCacheKey key) c.memoryCache with
  | some memoryCached =>
    if now - memoryCached.cachedAt < memoryCached.ttl * 1000 then
      (some memoryCached.response,
       { c with
          memoryCache := Assoc.modify (generateCacheKey key)
            (fun e => { e with hitCount := e.hitCount + 1 }) c.memoryCache,
          stats := { c.stats with hits := c.stats.hits + 1 } })
    else
      getRedisSide c key (generateCacheKey key) now
  | none => getRedisSide c key (generateCacheKey key) now
where
  /-- The L2 branch of `get`, shared by the stale-L1 and missing-L1 paths. -/
  getRedisSide (c : CacheState) (_key : ToolCacheKey) (cacheKey : String) (now : Int) :
      Option String × CacheState :=
    match c.redis with
    | some store =>
      match redisRead store cacheKey now with
      | some parsed =>
        (some parsed.response,
         { c with
            memoryCache := Assoc.set cacheKey
              { response := parsed.response, cachedAt := parsed.cachedAt,
                ttl := parsed.ttl, hitCount := parsed.hitCount + 1 } c.memoryCache,
            stats := { c.stats with hits := c.stats.hits + 1 } })
      | none =>
        (none, { c with stats := { c.stats with misses := c.stats.misses + 1 } })
    | none =>
      (none, { c with stats := { c.stats with misses := c.stats.misses + 1 } })

/-- Embedding of `ToolResponseCache.evictOldestEntries`: sort the entries by
`cachedAt` and drop the oldest tenth of `maxMemoryEntries`. -/
def evictOldestEntries (c : CacheState) : CacheState :=
  let entries := c.memoryCache.insertionSort (fun a b => a.2.cachedAt ≤ b.2.cachedAt)
  let toEvict := entries.take (c.maxMemoryEntries / 10)
  { c with
      memoryCache := toEvict.foldl (fun m p => Assoc.erase p.1 m) c.memoryCache,
      stats := { c.stats with evictions := c.stats.evictions + toEvict.length } }

/-- Embedding of `ToolResponseCache.set`.  The effective TTL is
`ttlSeconds || this.getTtlForTool(key.toolName)` (so an argument of `0` or
`none` falls back to the tool policy); a zero effective TTL skips storing.
L2 is written only when `ttl > 60`. -/
def set (c : CacheState) (key : ToolCacheKey) (response : String)
    (ttlSeconds : Option Int) (now : Int) : CacheState :=
  let cacheKey := generateCacheKey key
  let ttl := match ttlSeconds with
    | some t => if t = 0 then getTtlForTool c.defaultTtlSeconds key.toolName else t
    | none => getTtlForTool c.defaultTtlSeconds key.toolName
  if ttl = 0 then c
  else
    let cachedResponse : CachedToolResponse :=
      { response := response, cachedAt := now, ttl := ttl, hitCount := 0 }
    let c₁ := { c with
      memoryCache := Assoc.set cacheKey cachedResponse c.memoryCache,
      stats := { c.stats with sets := c.stats.sets + 1 } }
    let c₂ := if c₁.memoryCache.length > c₁.maxMemoryEntries then evictOldestEntries c₁ else c₁
    match c₂.redis with
    | some store =>
      if ttl > 60 then { c₂ with redis := some (Assoc.set cacheKey cachedResponse store) }
      else c₂
    | none => c₂

/-- The state on which the C8 bug is exhibited: a fresh memory-only cache with
the default configuration (1000 entries, default TTL 300 s). -/
def c8Cache : CacheState :=
  { memoryCache := [], redis := none, stats := ⟨0, 0, 0, 0⟩,
    maxMemoryEntries := 1000, defaultTtlSeconds := 300 }

/-- The C8 failing input: tool `create-secret` (TTL policy 0, "No cache"),
`set` called without an explicit `ttlSeconds`. -/
def c8Key : ToolCacheKey := ⟨"create-secret", "srv-1", [], some "ns-1"⟩

end Cache

namespace Pool

/-- A per-API-key bucket (`ApiKeyConnection` in
`api-key-connection-pool.ts`): the map serverUuid → connected client (clients
are identified by the id the pool assigned at creation), access times, and
the `metadata` fields. -/
structure ApiKeyConnection where
  apiKey : String
  connections : List (String × Nat)
  lastAccess : Int
  createdAt : Int
  userId : Option String
  keyUuid : String
  serverCount : Nat
deriving DecidableEq

/-- State of the `ApiKeyConnectionPool` singleton: the bucket map, the server
parameters cache (parameters abstracted to an opaque token), and a counter
producing fresh client ids. -/
structure PoolState where
  activeConnections : List (String × ApiKeyConnection)
  serverParamsCache : List (String × Nat)
  nextClientId : Nat
deriving DecidableEq

/-- The pool before any connection is made. -/
def emptyPool : PoolState := ⟨[], [], 0⟩

/-- `private readonly maxConnectionsPerApiKey = 50`. -/
def maxConnectionsPerApiKey : Nat := 50

/-- `private readonly maxGlobalConnections = 100`. -/
def maxGlobalConnections : Nat := 100

/-- Embedding of `getTotalConnectionCount`: sum of bucket sizes. -/
def getTotalConnectionCount (st : PoolState) : Nat :=
  st.activeConnections.foldl (fun acc p => acc + p.2.connections.length) 0

/-- The errors `getConnection` can throw. -/
inductive PoolError where
  | globalLimitReached
  | perApiKeyLimitReached
  | connectionFailed
deriving DecidableEq

/-- Steps (c)–(f) of `getConnection`, shared by the fresh-bucket and
existing-bucket paths: enforce the per-key limit, attempt the upstream
connection (`connectOk` stands for its success), and store the new client in
the bucket.  On failure the state keeps the updates made so far. -/
def addConnection (st : PoolState) (apiKey serverUuid : String)
    (bucket : ApiKeyConnection) (connectOk : Bool) (now : Int) :
    Except PoolError Nat × PoolState :=
  if bucket.connections.length ≥ maxConnectionsPerApiKey then
    (Except.error .perApiKeyLimitReached, st)
  else if !connectOk then
    (Except.error .connectionFailed, st)
  else
    let cid := st.nextClientId
    let conns := Assoc.set serverUuid cid bucket.connections
    let bucket' := { bucket with connections := conns, lastAccess := now,
                                 serverCount := conns.length }
    (Except.ok cid,
     { st with activeConnections := Assoc.set apiKey bucket' st.activeConnections,
               nextClientId := cid + 1 })

/-- Embedding of `ApiKeyConnectionPool.getConnection`: update the params
cache; if the API key has no bucket, enforce the **global** limit and create
an empty bucket; reuse an existing connection to the server (refreshing
`lastAccess`); otherwise add a new connection via `addConnection`. -/
def getConnection (st : PoolState) (apiKey serverUuid : String) (params : Nat)
    (_keyUuid : String) (_userId : Option String) (connectOk : Bool) (now : Int) :
    Except PoolError Nat × PoolState :=
  let st₁ := { st with
    serverParamsCache := Assoc.set serverUuid params st.serverParamsCache }
  match Assoc.find? apiKey st₁.activeConnections with
  | none =>
    if getTotalConnectionCount st₁ ≥ maxGlobalConnections then
      (Except.error .globalLimitReached, st₁)
    else
      let bucket : ApiKeyConnection :=
        ⟨apiKey, [], now, now, _userId, _keyUuid, 0⟩
      let st₂ := { st₁ with
        activeConnections := Assoc.set apiKey bucket st₁.activeConnections }
      addConnection st₂ apiKey serverUuid bucket connectOk now
  | some bucket =>
    match Assoc.find? serverUuid bucket.connections with
    | some existing =>
      (Except.ok existing,
       { st₁ with
          activeConnections := Assoc.modify apiKey
            (fun b => { b with lastAccess := now }) st₁.activeConnections })
    | none => addConnection st₁ apiKey serverUuid bucket connectOk now

/-- Embedding of `cleanupApiKey`: close every connection of the bucket
(external effect) and delete the bucket. -/
def cleanupApiKey (st : PoolState) (apiKey : String) : PoolState :=
  match Assoc.find? apiKey st.activeConnections with
  | none => st
  | some _ =>
    { st with activeConnections := Assoc.erase apiKey st.activeConnections }

/-- Embedding of `cleanupServerConnection`: remove the one entry
`(apiKey, serverUuid)` if present, update `serverCount`, and delete the bucket
when it becomes empty. -/
def cleanupServerConnection (st : PoolState) (serverUuid apiKey : String) :
    PoolState :=
  match Assoc.find? apiKey st.activeConnections with
  | none => st
  | some bucket =>
    match Assoc.find? serverUuid bucket.connections with
    | none => st
    | some _ =>
      let conns := Assoc.erase serverUuid bucket.connections
      if conns.length = 0 then
        { st with activeConnections := Assoc.erase apiKey st.activeConnections }
      else
        { st with
            activeConnections := Assoc.set apiKey
              { bucket with connections := conns, serverCount := conns.length }
              st.activeConnections }

/-- Embedding of `cleanupServerConnections` (server deleted): drop the params
cache entry and apply `cleanupServerConnection` for every API key. -/
def cleanupServerConnections (st : PoolState) (serverUuid : String) : PoolState :=
  let st₁ := { st with serverParamsCache := Assoc.erase serverUuid st.serverParamsCache }
  (st₁.activeConnections.map Prod.fst).foldl
    (fun acc k => cleanupServerConnection acc serverUuid k) st₁

/-- Embedding of `cleanupAll` (shutdown): every bucket is cleaned up and the
params cache is cleared. -/
def cleanupAll (st : PoolState) : PoolState :=
  { activeConnections := [], serverParamsCache := [], nextClientId := st.nextClientId }

/-- The operations of claim C2: connection acquisitions, crash callbacks
(whose pool effect is `cleanupServerConnection`) and the cleanup entry
points. -/
inductive PoolOp where
  | getConn (apiKey serverUuid : String) (params : Nat) (keyUuid : String)
      (userId : Option String) (connectOk : Bool) (now : Int)
  | crash (serverUuid apiKey : String)
  | cleanupKey (apiKey : String)
  | cleanupServer (serverUuid : String)
  | cleanupEverything

/-- Apply one pool operation (the state effect; `getConn` results are
observed separately). -/
def applyOp (st : PoolState) : PoolOp → PoolState
  | .getConn a s p k u ok now => (getConnection st a s p k u ok now).2
  | .crash s a => cleanupServerConnection st s a
  | .cleanupKey a => cleanupApiKey st a
  | .cleanupServer s => cleanupServerConnections st s
  | .cleanupEverything => cleanupAll st

/-- Run a sequence of pool operations from a state. -/
def runPool (st : PoolState) (ops : List PoolOp) : PoolState :=
  ops.foldl applyOp st

/-- All buckets respect the per-API-key connection limit. -/
def BucketBound (st : PoolState) : Prop :=
  ∀ k b, Assoc.find? k st.activeConnections = some b →
    b.connections.length ≤ maxConnectionsPerApiKey

/-- The operation sequence refuting the global bound: three buckets are
created while the total is small (the only moment the global limit is
checked), then two of them are filled to the per-key limit of 50. -/
def c2CounterOps : List PoolOp :=
  [.getConn "keyA" "srv0" 0 "uA" none true 0,
   .getConn "keyB" "srv0" 0 "uB" none true 0,
   .getConn "keyC" "srv0" 0 "uC" none true 0] ++
  ((List.range 49).map
    (fun i => .getConn "keyA" ("srv" ++ toString (i + 1)) 0 "uA" none true 0)) ++
  ((List.range 49).map
    (fun i => .getConn "keyB" ("srv" ++ toString (i + 1)) 0 "uB" none true 0))

/-- Modelled from the spec: `serverErrorTracker.recordServerCrash(serverUuid,
exitCode, signal)` of the error tracker (spec §4.3; the tracker module itself
is not among the core sources), which persists the crash / marks the server
`ERROR`.  Embedded as appending the crash record to the tracker log. -/
def recordServerCrash (tracker : List (String × Option Int × Option String))
    (serverUuid : String) (exitCode : Option Int) (signal : Option String) :
    List (String × Option Int × Option String) :=
  tracker ++ [(serverUuid, exitCode, signal)]

/-- Pool state together with the error-tracker state touched by the crash
callback. -/
structure GlobalPoolState where
  tracker : List (String × Option Int × Option String)
  pool : PoolState
deriving DecidableEq

/-- Embedding of `ApiKeyConnectionPool.handleServerCrash`: first record the
crash in the error tracker, then clean up the one connection of
`(serverUuid, apiKey)` via `cleanupServerConnection`. -/
def handleServerCrash (gs : GlobalPoolState) (serverUuid apiKey : String)
    (_keyUuid : String) (exitCode : Option Int) (signal : Option String) :
    GlobalPoolState :=
  { tracker := recordServerCrash gs.tracker serverUuid exitCode signal,
    pool := cleanupServerConnection gs.pool serverUuid apiKey }

/-- The concrete two-key pool the C9 witness crashes: `kA` holds connections
to `s1` and `s2`, `kB` holds a connection to `s1`. -/
def c9Pool : GlobalPoolState :=
  { tracker := [],
    pool :=
      { activeConnections :=
          [("kA", ⟨"kA", [("s1", 1), ("s2", 2)], 0, 0, none, "uA", 2⟩),
           ("kB", ⟨"kB", [("s1", 3)], 0, 0, none, "uB", 1⟩)],
        serverParamsCache := [], nextClientId := 4 } }

end Pool

namespace Router

/-- The authentication context returned by `validateApiKeyAndGetContext` for a
valid key. -/
structure AuthContext where
  keyUuid : String
  userId : Option String
deriving DecidableEq

/-- A streamable-HTTP session table entry (`streamableHttpSessions` values;
the transport and the server-instance cleanup closure are external). -/
structure SessionEntry where
  namespaceUuid : String
  apiKey : String
deriving DecidableEq

/-- The module-level state of `routers/mcp-proxy/metamcp.ts`, together with
the connection-pool state of the process.  The pool is carried so that the
effect (or absence of effect) of router operations on it can be stated; the
router's `cleanupApiKey` explicitly skips pool cleanup (see the TODO comment
in the source). -/
structure RouterState where
  sseTransportsByApiKey : List (String × Nat)
  metamcpServers : List (String × Nat)
  streamableHttpSessions : List (String × SessionEntry)
  streamableSessionLastAccess : List (String × Int)
  apiKeyTransportLastAccess : List (String × Int)
  pool : Pool.PoolState
deriving DecidableEq

/-- Embedding of `cleanupStreamableSession`: drop the session and its
last-access entry; closing the transport and running the per-session server
cleanup are external effects.  (Modelled from the spec for the cleanup
closure of `createServer`, which is not among the core sources: per §4.7 it
releases per-session state and does **not** destroy the API-key bucket.) -/
def cleanupStreamableSession (st : RouterState) (sessionId : String) : RouterState :=
  match Assoc.find? sessionId st.streamableHttpSessions with
  | none => st
  | some _ =>
    { st with
        streamableHttpSessions := Assoc.erase sessionId st.streamableHttpSessions,
        streamableSessionLastAccess :=
          Assoc.erase sessionId st.streamableSessionLastAccess }

/-- Fold `cleanupStreamableSession` over a list of session ids. -/
def cleanupSessions (st : RouterState) (sids : List String) : RouterState :=
  sids.foldl cleanupStreamableSession st

/-- First step of the router's `cleanupApiKey`: close and drop the SSE
transport of the key, if any. -/
def dropSseTransport (st : RouterState) (apiKey : String) : RouterState :=
  match Assoc.find? apiKey st.sseTransportsByApiKey with
  | some _ =>
    { st with sseTransportsByApiKey := Assoc.erase apiKey st.sseTransportsByApiKey }
  | none => st

/-- Second step of the router's `cleanupApiKey`: clean up and drop the
per-key server instance, if any. -/
def dropServerInstance (st : RouterState) (apiKey : String) : RouterState :=
  match Assoc.find? apiKey st.metamcpServers with
  | some _ => { st with metamcpServers := Assoc.erase apiKey st.metamcpServers }
  | none => st

/-- Embedding of the router's `cleanupApiKey`: close the SSE transport and
the per-key server instance, then clean up every streamable session whose
`apiKey` matches.  The upstream connection pool is **not** touched — the
source carries a TODO ("we'll skip pool cleanup") instead. -/
def cleanupApiKey (st : RouterState) (apiKey : String) : RouterState :=
  cleanupSessions (dropServerInstance (dropSseTransport st apiKey) apiKey)
    (((dropServerInstance (dropSseTransport st apiKey) apiKey).streamableHttpSessions.filter
      (fun p => p.2.apiKey = apiKey)).map Prod.fst)

/-- Embedding of `GET /:uuid/mcp`: 401 without or with an invalid key, 400
without a session id, 404 when the session is missing or its key or
namespace does not match, else 200 (the request is forwarded to the session's
transport) with the session's last-access refreshed. -/
def getMcp (validate : String → Option AuthContext) (st : RouterState)
    (namespaceUuid : String) (apiKey? sessionId? : Option String) (now : Int) :
    Nat × RouterState :=
  match apiKey? with
  | none => (401, st)
  | some apiKey =>
    match validate apiKey with
    | none => (401, st)
    | some _ =>
      match sessionId? with
      | none => (400, st)
      | some sessionId =>
        match Assoc.find? sessionId st.streamableHttpSessions with
        | none => (404, st)
        | some session =>
          if session.apiKey ≠ apiKey ∨ session.namespaceUuid ≠ namespaceUuid then
            (404, st)
          else
            (200, { st with
              streamableSessionLastAccess :=
                Assoc.set sessionId now st.streamableSessionLastAccess })

/-- Embedding of `POST /:uuid/mcp`: as `GET` for an existing session; without
a session id a new session is created under the caller's key (the fresh UUID
is the `newSessionId` argument) and the initial request is processed. -/
def postMcp (validate : String → Option AuthContext) (st : RouterState)
    (namespaceUuid : String) (apiKey? sessionId? : Option String)
    (newSessionId : String) (now : Int) : Nat × RouterState :=
  match apiKey? with
  | none => (401, st)
  | some apiKey =>
    match validate apiKey with
    | none => (401, st)
    | some _ =>
      match sessionId? with
      | none =>
        (200, { st with
          streamableHttpSessions := Assoc.set newSessionId
            ⟨namespaceUuid, apiKey⟩ st.streamableHttpSessions,
          streamableSessionLastAccess :=
            Assoc.set newSessionId now st.streamableSessionLastAccess })
      | some sessionId =>
        match Assoc.find? sessionId st.streamableHttpSessions with
        | none => (404, st)
        | some session =>
          if session.apiKey ≠ apiKey ∨ session.namespaceUuid ≠ namespaceUuid then
            (404, st)
          else
            (200, { st with
              streamableSessionLastAccess :=
                Assoc.set sessionId now st.streamableSessionLastAccess })

/-- Embedding of `DELETE /:uuid/mcp`: with a session id, close that one
session (404 on missing/mismatched session); without one, run the router's
`cleanupApiKey` for the caller's key. -/
def deleteMcp (validate : String → Option AuthContext) (st : RouterState)
    (namespaceUuid : String) (apiKey? sessionId? : Option String) :
    Nat × RouterState :=
  match apiKey? with
  | none => (401, st)
  | some apiKey =>
    match validate apiKey with
    | none => (401, st)
    | some _ =>
      match sessionId? with
      | some sessionId =>
        match Assoc.find? sessionId st.streamableHttpSessions with
        | none => (404, st)
        | some session =>
          if session.apiKey ≠ apiKey ∨ session.namespaceUuid ≠ namespaceUuid then
            (404, st)
          else
            (200, cleanupStreamableSession st sessionId)
      | none => (200, cleanupApiKey st apiKey)

/-- A validator knowing the two API keys of the C1 counterexample. -/
def c1Validate : String → Option AuthContext := fun k =>
  if k = "sk_mt_A" then some ⟨"uuid-A", none⟩
  else if k = "sk_mt_B" then some ⟨"uuid-B", none⟩ else none

/-- Router state with one streamable session owned by key A. -/
def c1State : RouterState :=
  { sseTransportsByApiKey := [], metamcpServers := [],
    streamableHttpSessions := [("sid1", ⟨"ns1", "sk_mt_A"⟩)],
    streamableSessionLastAccess := [("sid1", 0)],
    apiKeyTransportLastAccess := [],
    pool := Pool.emptyPool }

/-- A validator knowing the single API key of the C4 counterexample. -/
def c4Validate : String → Option AuthContext := fun k =>
  if k = "sk_mt_1" then some ⟨"uuid-1", none⟩ else none

/-- Router state with two sessions under `sk_mt_1` and a pool bucket holding
one upstream connection for that key. -/
def c4State : RouterState :=
  { sseTransportsByApiKey := [], metamcpServers := [],
    streamableHttpSessions :=
      [("sidA", ⟨"ns1", "sk_mt_1"⟩), ("sidB", ⟨"ns1", "sk_mt_1"⟩)],
    streamableSessionLastAccess := [("sidA", 0), ("sidB", 0)],
    apiKeyTransportLastAccess := [],
    pool :=
      { activeConnections :=
          [("sk_mt_1", ⟨"sk_mt_1", [("srv1", 0)], 0, 0, none, "uuid-1", 1⟩)],
        serverParamsCache := [("srv1", 0)], nextClientId := 1 } }

end Router

namespace Stdio

/-- JS `String.prototype.split` with a non-empty separator, over character
lists.  `fuel` bounds the recursion; the input length plus one suffices since
every step consumes at least one character. -/
def splitChars (sep : List Char) : Nat → List Char → List Char → List (List Char)
  | 0, acc, rest => [acc.reverse ++ rest]
  | _ + 1, acc, [] => [acc.reverse]
  | n + 1, acc, c :: rest =>
    if sep.isPrefixOf (c :: rest) then
      acc.reverse :: splitChars sep n [] (List.drop sep.length (c :: rest))
    else
      splitChars sep n (c :: acc) rest

/-- `s.split(sep)` for a non-empty separator. -/
def jsSplit (s sep : String) : List String :=
  (splitChars sep.data (s.data.length + 1) [] s.data).map String.mk

/-- JS `String.prototype.trim`: strip leading and trailing whitespace. -/
def jsTrim (s : String) : String :=
  String.mk (((s.data.dropWhile Char.isWhitespace).reverse.dropWhile
    Char.isWhitespace).reverse)

/-- Mutable state of `LogFilteringStdioWrapper`: the stdout byte buffer. -/
structure WrapperState where
  buffer : String
deriving DecidableEq

/-- The separator the source splits the buffer on:
`this.buffer.split("\\n")` — in JavaScript the string literal `"\\n"` denotes
the two-character sequence backslash `n`, **not** a newline. -/
def sourceSeparator : String := "\\n"

/-- Embedding of `handleStdoutData`: append the chunk to the buffer, split on
`sourceSeparator`, keep the last (possibly incomplete) fragment as the new
buffer, and route each remaining non-empty trimmed line either to `onMessage`
(when the `isJsonRpc` classifier — `isJsonRpcMessage` in the source, a
`JSON.parse`-based platform check kept abstract here — accepts it) or to the
log filter.  Returns the new state, the emitted messages, and the filtered
log lines. -/
def handleStdoutData (isJsonRpc : String → Bool) (st : WrapperState)
    (data : String) : WrapperState × List String × List String :=
  let buf := st.buffer ++ data
  let lines := jsSplit buf sourceSeparator
  let newBuffer := lines.getLastD ""
  let complete := lines.dropLast
  let processed := complete.foldl
    (fun (acc : List String × List String) line =>
      let trimmed := jsTrim line
      if trimmed = "" then acc
      else if isJsonRpc trimmed then (acc.1 ++ [trimmed], acc.2)
      else (acc.1, acc.2 ++ [trimmed]))
    ([], [])
  (⟨newBuffer⟩, processed.1, processed.2)

/-- Feed a sequence of stdout chunks through `handleStdoutData`,
accumulating the emitted messages and filtered log lines. -/
def processChunks (isJsonRpc : String → Bool) (st : WrapperState) :
    List String → WrapperState × List String × List String
  | [] => (st, [], [])
  | chunk :: rest =>
    let step := handleStdoutData isJsonRpc st chunk
    let next := processChunks isJsonRpc step.1 rest
    (next.1, step.2.1 ++ next.2.1, step.2.2 ++ next.2.2)

end Stdio

namespace Agg

/-- Modelled from the spec: `sanitizeName` (imported from
`lib/metamcp/utils`, which is not among the core sources) replaces any
character outside `[A-Za-z0-9_]` with `_` (spec §4.6 step 3). -/
def sanitizeChar (c : Char) : Char :=
  if ('A' ≤ c ∧ c ≤ 'Z') ∨ ('a' ≤ c ∧ c ≤ 'z') ∨ ('0' ≤ c ∧ c ≤ '9') ∨ c = '_'
  then c else '_'

/-- Modelled from the spec: `sanitizeName` applied characterwise. -/
def sanitizeName (s : String) : String :=
  String.mk (s.data.map sanitizeChar)

/-- An upstream server as the aggregation handlers observe it: uuid and
display name from the repository (`params.name`), whether
`mcpServerPool.getSession` yields a session, whether the session's client
declares `capabilities.tools`, and the tool names its `tools/list` returns. -/
structure UpstreamServer where
  uuid : String
  name : String
  hasSession : Bool
  declaresTools : Bool
  tools : List String
deriving DecidableEq

/-- Embedding of `createOriginalListToolsHandler`: every server with a
session contributes its tools renamed to `sanitize(serverName)__name`; the
missing-capability case is only logged ("trying tools/list anyway") and does
not exclude the server. -/
def listToolNames (servers : List UpstreamServer) : List String :=
  servers.flatMap (fun s =>
    if s.hasSession then
      s.tools.map (fun t => sanitizeName s.name ++ "__" ++ t)
    else [])

/-- The failures of `createOriginalCallToolHandler`. -/
inductive CallError where
  | invalidToolNameFormat
  | unknownTool
deriving DecidableEq

/-- `name.indexOf("__")` with the two `substring`s: split a character list at
the first occurrence of a double underscore. -/
def splitFirstSep : List Char → Option (List Char × List Char)
  | [] => none
  | c :: rest =>
    if c = '_' ∧ rest.head? = some '_' then some ([], rest.tail)
    else (splitFirstSep rest).map (fun p => (c :: p.1, p.2))

/-- Whether a character list contains a double underscore. -/
def hasSepChars : List Char → Bool
  | [] => false
  | c :: rest => (c = '_' && rest.head? == some '_') || hasSepChars rest

/-- Embedding of `createOriginalCallToolHandler`'s resolution: split the
incoming name at the **first** `__` (no separator is the invalid-format
error); walk the namespace servers in order and pick the first that has a
session, declares `capabilities.tools` (servers that do not are skipped —
unlike in the list handler) and whose sanitized name equals the prefix;
forward the remainder as the original tool name.  No match is the
unknown-tool error. -/
def callToolTarget (servers : List UpstreamServer) (name : String) :
    Except CallError (String × String) :=
  match splitFirstSep name.data with
  | none => .error .invalidToolNameFormat
  | some (pfxChars, origChars) =>
    match servers.find? (fun s =>
        s.hasSession && s.declaresTools &&
        (sanitizeName s.name == String.mk pfxChars)) with
    | some s => .ok (s.uuid, String.mk origChars)
    | none => .error .unknownTool

instance {ε α : Type} [DecidableEq ε] [DecidableEq α] :
    DecidableEq (Except ε α) := fun a b =>
  match a, b with
  | .ok x, .ok y =>
    if h : x = y then .isTrue (by rw [h])
    else .isFalse (by intro he; cases he; exact h rfl)
  | .error x, .error y =>
    if h : x = y then .isTrue (by rw [h])
    else .isFalse (by intro he; cases he; exact h rfl)
  | .ok _, .error _ => .isFalse (by intro h; cases h)
  | .error _, .ok _ => .isFalse (by intro h; cases h)

/-- The C3 counterexample server: it answers `tools/list` with one tool but
does not declare `capabilities.tools`. -/
def c3Server : UpstreamServer := ⟨"srv-uuid-1", "srv", true, false, ["read"]⟩

end Agg

namespace Assoc

theorem find?_set_self {β : Type} (k : String) (v : β) (l : List (String × β)) :
    find? k (set k v l) = some v := by
  induction l with
  | nil => simp [find?, set]
  | cons hd tl ih =>
    obtain ⟨k', v'⟩ := hd
    by_cases h : k' = k <;> simp [find?, set, h, ih]

theorem find?_set_ne {β : Type} (k k₀ : String) (v : β) (l : List (String × β))
    (h : k₀ ≠ k) : find? k₀ (set k v l) = find? k₀ l := by
  induction l with
  | nil => simp [find?, set, Ne.symm h]
  | cons hd tl ih =>
    obtain ⟨k', v'⟩ := hd
    by_cases hk : k' = k
    · subst hk
      simp [find?, set, Ne.symm h]
    · simp [find?, set, hk, ih]

theorem find?_erase_self {β : Type} (k : String) (l : List (String × β)) :
    find? k (erase k l) = none := by
  induction l with
  | nil => simp [find?, erase]
  | cons hd tl ih =>
    obtain ⟨k', v'⟩ := hd
    by_cases h : k' = k <;> simp_all [find?, erase, List.filter]

theorem find?_erase_ne {β : Type} (k k₀ : String) (l : List (String × β))
    (h : k₀ ≠ k) : find? k₀ (erase k l) = find? k₀ l := by
  induction l with
  | nil => simp [find?, erase]
  | cons hd tl ih =>
    obtain ⟨k', v'⟩ := hd
    by_cases hk : k' = k
    · subst hk
      simp_all [find?, erase, List.filter, Ne.symm h]
    · by_cases hk0 : k' = k₀ <;> simp_all [find?, erase, List.filter]

theorem find?_modify_ne {β : Type} (k k₀ : String) (f : β → β) (l : List (String × β))
    (h : k₀ ≠ k) : find? k₀ (modify k f l) = find? k₀ l := by
  induction l with
  | nil => simp [find?, modify]
  | cons hd tl ih =>
    obtain ⟨k', v'⟩ := hd
    by_cases hk : k' = k
    · subst hk
      simp [find?, modify, Ne.symm h, ih]
    · simp [find?, modify, hk, ih]

theorem find?_modify_self {β : Type} (k : String) (f : β → β) (l : List (String × β)) :
    find? k (modify k f l) = (find? k l).map f := by
  induction l with
  | nil => simp [find?, modify]
  | cons hd tl ih =>
    obtain ⟨k', v'⟩ := hd
    by_cases hk : k' = k <;> simp [find?, modify, hk, ih]

theorem find?_some_mem {β : Type} {k : String} {v : β} :
    ∀ {l : List (String × β)}, find? k l = some v → (k, v) ∈ l
  | [], h => by cases h
  | (k', v') :: tl, h => by
    by_cases hk : k' = k
    · subst hk
      simp [find?] at h
      subst h
      exact List.mem_cons_self _ _
    · simp only [find?, if_neg hk] at h
      exact List.mem_cons_of_mem _ (find?_some_mem h)

end Assoc

namespace Cache

namespace Lemmas

theorem find?_serializeJSONFields (keyList : List String) (k : String)
    (p : List (String × JVal)) :
    Assoc.find? k (serializeJSONFields keyList p) =
      (Assoc.find? k p).map (serializeJSON keyList) := by
  induction p with
  | nil => simp [serializeJSONFields, Assoc.find?]
  | cons hd tl ih =>
    obtain ⟨k', v⟩ := hd
    by_cases h : k' = k <;> simp [serializeJSONFields, Assoc.find?, h, ih]

theorem find?_of_perm {β : Type} (k : String) {p₁ p₂ : List (String × β)}
    (hperm : p₁.Perm p₂) (hnd : (p₁.map Prod.fst).Nodup) :
    Assoc.find? k p₁ = Assoc.find? k p₂ := by
  induction hperm with
  | nil => rfl
  | cons x h ih =>
    obtain ⟨kx, vx⟩ := x
    simp only [List.map_cons, List.nodup_cons] at hnd
    by_cases hk : kx = k <;> simp [Assoc.find?, hk, ih hnd.2]
  | swap x y l =>
    obtain ⟨kx, vx⟩ := x
    obtain ⟨ky, vy⟩ := y
    simp only [List.map_cons, List.nodup_cons, List.mem_cons] at hnd
    have hxy : ky ≠ kx := fun h => hnd.1 (Or.inl h)
    by_cases hx : kx = k <;> by_cases hy : ky = k <;>
      simp_all [Assoc.find?]
  | trans h₁ h₂ ih₁ ih₂ =>
    have hnd₂ := (h₁.map Prod.fst).nodup hnd
    exact (ih₁ hnd).trans (ih₂ hnd₂)

theorem sortedKeys_of_perm {p₁ p₂ : List (String × JVal)} (h : p₁.Perm p₂) :
    sortedKeys p₁ = sortedKeys p₂ := by
  apply List.eq_of_perm_of_sorted (r := (· ≤ ·))
  · exact (List.perm_insertionSort _ _).trans
      ((h.map Prod.fst).trans (List.perm_insertionSort _ _).symm)
  · exact List.sorted_insertionSort _ _
  · exact List.sorted_insertionSort _ _

theorem paramString_of_perm {p₁ p₂ : List (String × JVal)}
    (hperm : p₁.Perm p₂) (hnd : (p₁.map Prod.fst).Nodup) :
    paramString p₁ = paramString p₂ := by
  unfold paramString
  rw [sortedKeys_of_perm hperm]
  simp only [serializeJSON]
  have hfun : (fun k => (Assoc.find? k (serializeJSONFields (sortedKeys p₂) p₁)).map
        (fun s => quoteJSONString k ++ ":" ++ s)) =
      (fun k => (Assoc.find? k (serializeJSONFields (sortedKeys p₂) p₂)).map
        (fun s => quoteJSONString k ++ ":" ++ s)) := by
    funext k
    rw [find?_serializeJSONFields, find?_serializeJSONFields, find?_of_perm k hperm hnd]
  unfold selectMembers
  rw [hfun]

end Lemmas

/-- C7: the cache-key fingerprint is insensitive to the insertion order of the
argument object's keys.  For any two argument objects holding the same
key/value pairs (a permutation, with no duplicate keys), `generateCacheKey`
produces the same cache key, because the parameters are serialized against the
sorted key list `Object.keys(parameters).sort()`. -/
theorem c7_generateCacheKey_key_order_insensitive
    (toolName serverUuid : String) (namespaceUuid : Option String)
    (p₁ p₂ : List (String × JVal))
    (hperm : p₁.Perm p₂) (hnd : (p₁.map Prod.fst).Nodup) :
    generateCacheKey ⟨toolName, serverUuid, p₁, namespaceUuid⟩ =
      generateCacheKey ⟨toolName, serverUuid, p₂, namespaceUuid⟩ := by
  unfold generateCacheKey
  rw [Lemmas.paramString_of_perm hperm hnd]

/-- C7 witness: the two-field example from the spec,
`argsFingerprint(\x7ba:1,b:2\x7d) = argsFingerprint(\x7bb:2,a:1\x7d)`. -/
theorem c7_generateCacheKey_key_order_insensitive_witness :
    ([(("a" : String), JVal.num 1), ("b", JVal.num 2)] : List (String × JVal)).Perm
        [("b", JVal.num 2), ("a", JVal.num 1)] ∧
    generateCacheKey ⟨"t", "s", [("a", JVal.num 1), ("b", JVal.num 2)], none⟩ =
      generateCacheKey ⟨"t", "s", [("b", JVal.num 2), ("a", JVal.num 1)], none⟩ := by
  refine ⟨List.Perm.swap' _ _ (List.Perm.refl _), ?_⟩
  exact c7_generateCacheKey_key_order_insensitive "t" "s" none _ _
    (List.Perm.swap' _ _ (List.Perm.refl _)) (by simp)

theorem redisRead_some {store : List (String × CachedToolResponse)} {ck : String}
    {now : Int} {e : CachedToolResponse} (h : redisRead store ck now = some e) :
    Assoc.find? ck store = some e ∧ now - e.cachedAt < e.ttl * 1000 := by
  unfold redisRead at h
  split at h
  · split at h <;> simp_all
  · simp at h

/-- C6: a cache read at time `now` returns an entry only while
`now - cachedAt < ttl * 1000` (so in particular `now - cachedAt ≤ ttl` in
seconds, and an entry whose age equals or exceeds its TTL is never the source
of the returned response), and when every entry available for the key — in L1
and in L2 — has reached its TTL, the read reports a miss. -/
theorem c6_get_respects_ttl (c : CacheState) (key : ToolCacheKey) (now : Int) :
    (∀ r, (get c key now).1 = some r →
      ∃ e : CachedToolResponse,
        (Assoc.find? (generateCacheKey key) c.memoryCache = some e ∨
          ∃ store, c.redis = some store ∧
            Assoc.find? (generateCacheKey key) store = some e) ∧
        r = e.response ∧ now - e.cachedAt < e.ttl * 1000) ∧
    ((∀ e, Assoc.find? (generateCacheKey key) c.memoryCache = some e →
        e.ttl * 1000 ≤ now - e.cachedAt) →
     (∀ store e, c.redis = some store →
        Assoc.find? (generateCacheKey key) store = some e →
        e.ttl * 1000 ≤ now - e.cachedAt) →
     (get c key now).1 = none) := by
  constructor
  · intro r hr
    unfold get at hr
    split at hr
    next e hmem =>
      split at hr
      next hfresh =>
        simp only at hr
        exact ⟨e, Or.inl hmem, by injection hr with h; exact h.symm, hfresh⟩
      next =>
        unfold get.getRedisSide at hr
        split at hr
        next store hred =>
          split at hr
          next parsed hrr =>
            obtain ⟨hfind, hfresh⟩ := redisRead_some hrr
            simp only at hr
            exact ⟨parsed, Or.inr ⟨store, hred, hfind⟩,
              by injection hr with h; exact h.symm, hfresh⟩
          next => simp at hr
        next => simp at hr
    next hmem =>
      unfold get.getRedisSide at hr
      split at hr
      next store hred =>
        split at hr
        next parsed hrr =>
          obtain ⟨hfind, hfresh⟩ := redisRead_some hrr
          simp only at hr
          exact ⟨parsed, Or.inr ⟨store, hred, hfind⟩,
            by injection hr with h; exact h.symm, hfresh⟩
        next => simp at hr
      next => simp at hr
  · intro hmemStale hredStale
    unfold get
    have hredNone : ∀ store, c.redis = some store →
        redisRead store (generateCacheKey key) now = none := by
      intro store hst
      unfold redisRead
      split
      next e hfind =>
        rw [if_neg (not_lt.mpr (hredStale store e hst hfind))]
      next => rfl
    split
    next e hmem =>
      rw [if_neg (not_lt.mpr (hmemStale e hmem))]
      unfold get.getRedisSide
      split
      next store hst => rw [hredNone store hst]
      next => rfl
    next hmem =>
      unfold get.getRedisSide
      split
      next store hst => rw [hredNone store hst]
      next => rfl

/-- C6 witness: a concrete single-entry memory cache read 1500 ms after the
entry was stored with a 2-second TTL; the read returns the entry and the
theorem instantiates at it. -/
theorem c6_get_respects_ttl_witness :
    ∃ e : CachedToolResponse,
      (Assoc.find? (generateCacheKey ⟨"t", "s", [], none⟩)
          [(generateCacheKey ⟨"t", "s", [], none⟩,
            ({ response := "r", cachedAt := 0, ttl := 2, hitCount := 0 } : CachedToolResponse))] =
          some e ∨
        ∃ store,
          (none : Option (List (String × CachedToolResponse))) = some store ∧
          Assoc.find? (generateCacheKey ⟨"t", "s", [], none⟩) store = some e) ∧
      "r" = e.response ∧ (1500 : Int) - e.cachedAt < e.ttl * 1000 :=
  (c6_get_respects_ttl
    { memoryCache :=
        [(generateCacheKey ⟨"t", "s", [], none⟩,
          { response := "r", cachedAt := 0, ttl := 2, hitCount := 0 })],
      redis := none, stats := ⟨0, 0, 0, 0⟩,
      maxMemoryEntries := 1000, defaultTtlSeconds := 300 }
    ⟨"t", "s", [], none⟩ 1500).1 "r" (by decide)

/-- C8 (code bug): `getTtlForTool` computes
`ttlStrategies[toolName] || defaultTtlSeconds`, and JS `||` treats the table
value `0` as falsy, so the "No cache" tools fall back to the default TTL of
300 s.  Calling `set` for `create-secret` with no `ttlSeconds` therefore
stores the response (with `ttl = 300`), and the following `get` returns it —
the cache does hold a response for a tool classified non-cacheable. -/
theorem c8_create_secret_gets_cached :
    getTtlForTool 300 "create-secret" = 300 ∧
    (set c8Cache c8Key "stored-secret" none 5000).memoryCache =
      [(generateCacheKey c8Key,
        { response := "stored-secret", cachedAt := 5000, ttl := 300, hitCount := 0 })] ∧
    (get (set c8Cache c8Key "stored-secret" none 5000) c8Key 5000).1 =
      some "stored-secret" := by
  refine ⟨by decide, by decide, by decide⟩

/-- C10: the truncated base64 fingerprint in `generateCacheKey` is not
injective.  Two distinct argument objects whose canonical JSON agrees on the
first 12 bytes receive the same cache key, because only the first 16 base64
characters (12 bytes) of the serialized parameters are kept and no digest is
applied. -/
theorem c10_cache_key_fingerprint_collision :
    ([("a", JVal.str "abcdefgh-SAME-1")] : List (String × JVal)) ≠
      [("a", JVal.str "abcdefgh-SAME-2")] ∧
    generateCacheKey ⟨"read_file", "srv-1", [("a", JVal.str "abcdefgh-SAME-1")], some "ns-1"⟩ =
      generateCacheKey ⟨"read_file", "srv-1", [("a", JVal.str "abcdefgh-SAME-2")], some "ns-1"⟩ := by
  constructor
  · simp
  · rfl

end Cache

namespace Pool

theorem length_set_le {β : Type} (k : String) (v : β) (l : List (String × β)) :
    (Assoc.set k v l).length ≤ l.length + 1 := by
  induction l with
  | nil => simp [Assoc.set]
  | cons hd tl ih =>
    obtain ⟨k', v'⟩ := hd
    by_cases h : k' = k <;> simp [Assoc.set, h] <;> omega

theorem length_erase_le {β : Type} (k : String) (l : List (String × β)) :
    (Assoc.erase k l).length ≤ l.length :=
  List.length_filter_le _ _

theorem bucketBound_addConnection {st : PoolState} {a s : String}
    {bucket : ApiKeyConnection} {ok : Bool} {now : Int} (h : BucketBound st) :
    BucketBound (addConnection st a s bucket ok now).2 := by
  by_cases h1 : bucket.connections.length ≥ maxConnectionsPerApiKey
  · simpa [addConnection, h1] using h
  · by_cases hok : ok
    · simp only [addConnection, if_neg h1, hok, Bool.not_true,
        Bool.false_eq_true, if_false]
      intro k b hb
      by_cases hk : k = a
      · subst hk
        rw [Assoc.find?_set_self] at hb
        cases hb
        have hle := length_set_le s st.nextClientId bucket.connections
        simp only [ge_iff_le, not_le, maxConnectionsPerApiKey] at h1 ⊢
        omega
      · rw [Assoc.find?_set_ne _ _ _ _ hk] at hb
        exact h k b hb
    · simp only [hok] at *
      simpa [addConnection, h1] using h

theorem bucketBound_getConnection {st : PoolState} (h : BucketBound st)
    (a s : String) (p : Nat) (ku : String) (u : Option String) (ok : Bool)
    (now : Int) :
    BucketBound (getConnection st a s p ku u ok now).2 := by
  have h₁ : BucketBound { st with
      serverParamsCache := Assoc.set s p st.serverParamsCache } := h
  unfold getConnection
  cases hfind : Assoc.find? a st.activeConnections with
  | none =>
    simp only [hfind]
    split
    · exact h₁
    · apply bucketBound_addConnection
      intro k b hb
      by_cases hk : k = a
      · subst hk
        rw [Assoc.find?_set_self] at hb
        cases hb
        simp [maxConnectionsPerApiKey]
      · rw [Assoc.find?_set_ne _ _ _ _ hk] at hb
        exact h k b hb
  | some bucket =>
    simp only [hfind]
    cases hc : Assoc.find? s bucket.connections with
    | some existing =>
      simp only [hc]
      intro k b hb
      by_cases hk : k = a
      · subst hk
        rw [Assoc.find?_modify_self] at hb
        rw [hfind] at hb
        cases hb
        exact h k bucket hfind
      · rw [Assoc.find?_modify_ne _ _ _ _ hk] at hb
        exact h k b hb
    | none =>
      simp only [hc]
      exact bucketBound_addConnection h₁

theorem bucketBound_cleanupServerConnection {st : PoolState}
    (h : BucketBound st) (s a : String) :
    BucketBound (cleanupServerConnection st s a) := by
  unfold cleanupServerConnection
  cases hb : Assoc.find? a st.activeConnections with
  | none => exact h
  | some bucket =>
    simp only
    cases hc : Assoc.find? s bucket.connections with
    | none => exact h
    | some cid =>
      simp only
      split
      · intro k b hkb
        by_cases hk : k = a
        · subst hk
          rw [Assoc.find?_erase_self] at hkb
          cases hkb
        · rw [Assoc.find?_erase_ne _ _ _ hk] at hkb
          exact h k b hkb
      · intro k b hkb
        by_cases hk : k = a
        · subst hk
          rw [Assoc.find?_set_self] at hkb
          cases hkb
          have h₁ := length_erase_le s bucket.connections
          have h₂ := h k bucket hb
          simp only [maxConnectionsPerApiKey] at h₂ ⊢
          omega
        · rw [Assoc.find?_set_ne _ _ _ _ hk] at hkb
          exact h k b hkb

theorem bucketBound_foldCleanup (s : String) :
    ∀ (ks : List String) (st : PoolState), BucketBound st →
      BucketBound (ks.foldl (fun acc k => cleanupServerConnection acc s k) st)
  | [], _, h => h
  | k :: ks, st, h =>
    bucketBound_foldCleanup s ks _ (bucketBound_cleanupServerConnection h s k)

theorem bucketBound_applyOp {st : PoolState} (h : BucketBound st) (op : PoolOp) :
    BucketBound (applyOp st op) := by
  cases op with
  | getConn a s p k u ok now => exact bucketBound_getConnection h a s p k u ok now
  | crash s a => exact bucketBound_cleanupServerConnection h s a
  | cleanupKey a =>
    simp only [applyOp, cleanupApiKey]
    cases hb : Assoc.find? a st.activeConnections with
    | none => exact h
    | some bucket =>
      intro k b hkb
      simp only at hkb
      by_cases hk : k = a
      · subst hk
        rw [Assoc.find?_erase_self] at hkb
        cases hkb
      · rw [Assoc.find?_erase_ne _ _ _ hk] at hkb
        exact h k b hkb
  | cleanupServer s =>
    apply bucketBound_foldCleanup
    exact h
  | cleanupEverything =>
    intro k b hkb
    simp [applyOp, cleanupAll, Assoc.find?] at hkb

theorem bucketBound_runPool :
    ∀ (ops : List PoolOp) (st : PoolState), BucketBound st →
      BucketBound (runPool st ops)
  | [], _, h => h
  | op :: ops, st, h =>
    bucketBound_runPool ops (applyOp st op) (bucketBound_applyOp h op)

set_option maxRecDepth 1000000 in
/-- C2 counterexample: after `c2CounterOps` (101 successful `getConnection`
calls) the pool holds 101 connections, exceeding `maxGlobalConnections = 100`;
in particular the 101st distinct acquisition (the last operation, appended to
the existing `keyB` bucket) succeeds instead of being rejected, because the
global limit is only consulted when a new bucket is created. -/
theorem c2_global_limit_violated :
    maxGlobalConnections = 100 ∧
    getTotalConnectionCount (runPool emptyPool c2CounterOps) = 101 ∧
    (getConnection (runPool emptyPool (c2CounterOps.take 100))
        "keyB" "srv49" 0 "uB" none true 0).1.toOption = some 100 := by
  refine ⟨rfl, by decide, by decide⟩

/-- C2 (amended): every bucket always holds at most
`maxConnectionsPerApiKey = 50` connections, and the global limit of
`maxGlobalConnections = 100` is enforced only at bucket creation: an
acquisition for an API key that has no bucket is rejected with the
resource-limit error when the total is already at the cap.  (The sum over all
buckets is **not** bounded by 100: connections added to existing buckets
bypass the global check, see the counterexample.) -/
theorem c2_pool_limits_amended :
    (∀ (ops : List PoolOp) (apiKey : String) (b : ApiKeyConnection),
        Assoc.find? apiKey (runPool emptyPool ops).activeConnections = some b →
        b.connections.length ≤ maxConnectionsPerApiKey) ∧
    (∀ (st : PoolState) (apiKey serverUuid : String) (params : Nat)
        (keyUuid : String) (userId : Option String) (connectOk : Bool) (now : Int),
        Assoc.find? apiKey st.activeConnections = none →
        maxGlobalConnections ≤ getTotalConnectionCount st →
        (getConnection st apiKey serverUuid params keyUuid userId connectOk now).1 =
          Except.error PoolError.globalLimitReached) := by
  constructor
  · intro ops apiKey b hb
    exact bucketBound_runPool ops emptyPool (by intro k b' h; cases h) apiKey b hb
  · intro st apiKey serverUuid params keyUuid userId connectOk now hnone htot
    unfold getConnection
    simp only [hnone]
    rw [if_pos]
    exact htot

set_option maxRecDepth 1000000 in
/-- C2 witness: a single acquisition leaves a bucket of size 1 ≤ 50, and an
acquisition for the fresh key `keyD` against the 101-connection pool of the
counterexample trace is rejected with the global resource-limit error. -/
theorem c2_pool_limits_amended_witness :
    (ApiKeyConnection.mk "k" [("s", 0)] 0 0 none "u" 1).connections.length ≤
        maxConnectionsPerApiKey ∧
    (getConnection (runPool emptyPool c2CounterOps)
        "keyD" "srvX" 1 "uD" none true 0).1 =
      Except.error PoolError.globalLimitReached := by
  constructor
  · exact c2_pool_limits_amended.1 [.getConn "k" "s" 0 "u" none true 0] "k"
      (ApiKeyConnection.mk "k" [("s", 0)] 0 0 none "u" 1) (by decide)
  · exact c2_pool_limits_amended.2 (runPool emptyPool c2CounterOps)
      "keyD" "srvX" 1 "uD" none true 0 (by decide) (by decide)

/-- C9: when the crash callback for `(apiKey, serverUuid)` fires on a pool
that holds that connection, the crash is appended to the error tracker and
exactly that one entry is removed: all other API keys' buckets are untouched,
within the bucket all other servers' connections are untouched, and the
bucket itself is deleted if and only if it becomes empty. -/
theorem c9_crash_removes_exactly_one_connection
    (gs : GlobalPoolState) (serverUuid apiKey keyUuid : String)
    (exitCode : Option Int) (signal : Option String)
    (b : ApiKeyConnection) (cid : Nat)
    (hb : Assoc.find? apiKey gs.pool.activeConnections = some b)
    (hc : Assoc.find? serverUuid b.connections = some cid) :
    (handleServerCrash gs serverUuid apiKey keyUuid exitCode signal).tracker =
        gs.tracker ++ [(serverUuid, exitCode, signal)] ∧
    (∀ k, k ≠ apiKey →
      Assoc.find? k
          (handleServerCrash gs serverUuid apiKey keyUuid exitCode
            signal).pool.activeConnections =
        Assoc.find? k gs.pool.activeConnections) ∧
    ((Assoc.erase serverUuid b.connections).length = 0 →
      Assoc.find? apiKey
          (handleServerCrash gs serverUuid apiKey keyUuid exitCode
            signal).pool.activeConnections = none) ∧
    ((Assoc.erase serverUuid b.connections).length ≠ 0 →
      Assoc.find? apiKey
          (handleServerCrash gs serverUuid apiKey keyUuid exitCode
            signal).pool.activeConnections =
        some { b with connections := Assoc.erase serverUuid b.connections,
                      serverCount := (Assoc.erase serverUuid b.connections).length }) ∧
    (∀ u, u ≠ serverUuid →
      Assoc.find? u (Assoc.erase serverUuid b.connections) =
        Assoc.find? u b.connections) ∧
    Assoc.find? serverUuid (Assoc.erase serverUuid b.connections) = none := by
  unfold handleServerCrash cleanupServerConnection
  simp only [hb, hc]
  refine ⟨rfl, ?_, ?_, ?_, ?_, ?_⟩
  · intro k hk
    split
    · simp only
      exact Assoc.find?_erase_ne _ _ _ hk
    · simp only
      exact Assoc.find?_set_ne _ _ _ _ hk
  · intro hz
    rw [if_pos hz]
    simp only
    exact Assoc.find?_erase_self _ _
  · intro hz
    rw [if_neg hz]
    simp only
    exact Assoc.find?_set_self _ _ _
  · intro u hu
    exact Assoc.find?_erase_ne _ _ _ hu
  · exact Assoc.find?_erase_self _ _

/-- C9 witness: the crash of `(kA, s1)` on `c9Pool`, instantiating the frame
theorem at that concrete state. -/
theorem c9_crash_removes_exactly_one_connection_witness :
    (handleServerCrash c9Pool "s1" "kA" "uA" (some 1) none).tracker =
        [] ++ [("s1", some 1, none)] ∧
    (∀ k, k ≠ "kA" →
      Assoc.find? k
          (handleServerCrash c9Pool "s1" "kA" "uA" (some 1)
            none).pool.activeConnections =
        Assoc.find? k c9Pool.pool.activeConnections) ∧
    ((Assoc.erase "s1" [("s1", 1), ("s2", 2)]).length = 0 →
      Assoc.find? "kA"
          (handleServerCrash c9Pool "s1" "kA" "uA" (some 1)
            none).pool.activeConnections = none) ∧
    ((Assoc.erase "s1" [("s1", 1), ("s2", 2)]).length ≠ 0 →
      Assoc.find? "kA"
          (handleServerCrash c9Pool "s1" "kA" "uA" (some 1)
            none).pool.activeConnections =
        some ⟨"kA", Assoc.erase "s1" [("s1", 1), ("s2", 2)], 0, 0, none, "uA",
              (Assoc.erase "s1" [("s1", 1), ("s2", 2)]).length⟩) ∧
    (∀ u, u ≠ "s1" →
      Assoc.find? u (Assoc.erase "s1" [("s1", 1), ("s2", 2)]) =
        Assoc.find? u [("s1", 1), ("s2", 2)]) ∧
    Assoc.find? "s1" (Assoc.erase "s1" [("s1", 1), ("s2", 2)]) = none :=
  c9_crash_removes_exactly_one_connection c9Pool "s1" "kA" "uA" (some 1) none
    ⟨"kA", [("s1", 1), ("s2", 2)], 0, 0, none, "uA", 2⟩ 1 (by decide) (by decide)

end Pool

namespace Router

theorem css_pool (st : RouterState) (sid : String) :
    (cleanupStreamableSession st sid).pool = st.pool := by
  unfold cleanupStreamableSession
  split <;> rfl

theorem css_sessions_none (st : RouterState) (sid k : String)
    (h : Assoc.find? k st.streamableHttpSessions = none) :
    Assoc.find? k (cleanupStreamableSession st sid).streamableHttpSessions = none := by
  unfold cleanupStreamableSession
  split
  · exact h
  · by_cases hk : k = sid
    · subst hk
      exact Assoc.find?_erase_self _ _
    · simp only
      rw [Assoc.find?_erase_ne _ _ _ hk]
      exact h

theorem css_sessions_self (st : RouterState) (sid : String) :
    Assoc.find? sid (cleanupStreamableSession st sid).streamableHttpSessions = none := by
  unfold cleanupStreamableSession
  split
  next h => exact h
  next => exact Assoc.find?_erase_self _ _

theorem cleanupSessions_pool :
    ∀ (sids : List String) (st : RouterState),
      (cleanupSessions st sids).pool = st.pool
  | [], _ => rfl
  | sid :: sids, st =>
    (cleanupSessions_pool sids (cleanupStreamableSession st sid)).trans (css_pool st sid)

theorem cleanupSessions_none_mono :
    ∀ (sids : List String) (st : RouterState) (k : String),
      Assoc.find? k st.streamableHttpSessions = none →
      Assoc.find? k (cleanupSessions st sids).streamableHttpSessions = none
  | [], _, _, h => h
  | sid :: sids, st, k, h =>
    cleanupSessions_none_mono sids _ k (css_sessions_none st sid k h)

theorem cleanupSessions_none_of_mem :
    ∀ (sids : List String) (st : RouterState) (k : String), k ∈ sids →
      Assoc.find? k (cleanupSessions st sids).streamableHttpSessions = none := by
  intro sids
  induction sids with
  | nil => intro st k h; cases h
  | cons sid sids ih =>
    intro st k h
    rcases List.mem_cons.mp h with h | h
    · subst h
      exact cleanupSessions_none_mono sids _ k (css_sessions_self st k)
    · exact ih _ k h

theorem dropSse_pool (st : RouterState) (k : String) :
    (dropSseTransport st k).pool = st.pool := by
  unfold dropSseTransport
  split <;> rfl

theorem dropServer_pool (st : RouterState) (k : String) :
    (dropServerInstance st k).pool = st.pool := by
  unfold dropServerInstance
  split <;> rfl

theorem dropSse_sessions (st : RouterState) (k : String) :
    (dropSseTransport st k).streamableHttpSessions = st.streamableHttpSessions := by
  unfold dropSseTransport
  split <;> rfl

theorem dropServer_sessions (st : RouterState) (k : String) :
    (dropServerInstance st k).streamableHttpSessions = st.streamableHttpSessions := by
  unfold dropServerInstance
  split <;> rfl

theorem cleanupApiKey_pool (st : RouterState) (k : String) :
    (cleanupApiKey st k).pool = st.pool := by
  unfold cleanupApiKey
  rw [cleanupSessions_pool, dropServer_pool, dropSse_pool]

theorem cleanupApiKey_sessions_gone (st : RouterState) (apiKey sid : String)
    (e : SessionEntry) (hf : Assoc.find? sid st.streamableHttpSessions = some e)
    (he : e.apiKey = apiKey) :
    Assoc.find? sid (cleanupApiKey st apiKey).streamableHttpSessions = none := by
  unfold cleanupApiKey
  apply cleanupSessions_none_of_mem
  rw [dropServer_sessions, dropSse_sessions]
  have hmem := Assoc.find?_some_mem hf
  exact List.mem_map.mpr ⟨(sid, e), List.mem_filter.mpr ⟨hmem, by simp [he]⟩, rfl⟩

/-- C1 counterexample: a GET, POST and DELETE on `/ns1/mcp` carrying the
valid key B and the session id of the session owned by key A all respond
with HTTP 404 ("Session not found"), not 403 as claimed. -/
theorem c1_cross_key_reuse_is_404_not_403 :
    (getMcp c1Validate c1State "ns1" (some "sk_mt_B") (some "sid1") 0).1 = 404 ∧
    (postMcp c1Validate c1State "ns1" (some "sk_mt_B") (some "sid1") "fresh" 0).1 = 404 ∧
    (deleteMcp c1Validate c1State "ns1" (some "sk_mt_B") (some "sid1")).1 = 404 ∧
    (getMcp c1Validate c1State "ns1" (some "sk_mt_B") (some "sid1") 0).1 ≠ 403 ∧
    (postMcp c1Validate c1State "ns1" (some "sk_mt_B") (some "sid1") "fresh" 0).1 ≠ 403 ∧
    (deleteMcp c1Validate c1State "ns1" (some "sk_mt_B") (some "sid1")).1 ≠ 403 := by
  refine ⟨by decide, by decide, by decide, by decide, by decide, by decide⟩

/-- C1 (amended): for every request on `/:uuid/mcp` carrying a valid API key
and a session id whose session is owned by a **different** key, the router
responds with HTTP 404 (with the session id echoed) — the code folds the
cross-key case into "session not found" rather than answering 403. -/
theorem c1_cross_key_session_rejected_with_404
    (validate : String → Option AuthContext) (st : RouterState)
    (namespaceUuid apiKey : String) (ctx : AuthContext) (sid newSid : String)
    (e : SessionEntry) (now : Int)
    (hv : validate apiKey = some ctx)
    (hf : Assoc.find? sid st.streamableHttpSessions = some e)
    (hne : e.apiKey ≠ apiKey) :
    (getMcp validate st namespaceUuid (some apiKey) (some sid) now).1 = 404 ∧
    (postMcp validate st namespaceUuid (some apiKey) (some sid) newSid now).1 = 404 ∧
    (deleteMcp validate st namespaceUuid (some apiKey) (some sid)).1 = 404 := by
  refine ⟨?_, ?_, ?_⟩ <;>
    simp [getMcp, postMcp, deleteMcp, hv, hf, hne]

/-- C1 witness: the amended theorem instantiated at the concrete
counterexample state. -/
theorem c1_cross_key_session_rejected_with_404_witness :
    (getMcp c1Validate c1State "ns1" (some "sk_mt_B") (some "sid1") 7).1 = 404 ∧
    (postMcp c1Validate c1State "ns1" (some "sk_mt_B") (some "sid1") "s-new" 7).1 = 404 ∧
    (deleteMcp c1Validate c1State "ns1" (some "sk_mt_B") (some "sid1")).1 = 404 :=
  c1_cross_key_session_rejected_with_404 c1Validate c1State "ns1" "sk_mt_B"
    ⟨"uuid-B", none⟩ "sid1" "s-new" ⟨"ns1", "sk_mt_A"⟩ 7
    (by decide) (by decide) (by decide)

/-- C4 counterexample: `DELETE /ns1/mcp` with no `mcp-session-id` closes both
sessions of the key (old ids then answer 404) and returns 200, but the
upstream connection pool — claimed to be torn down as well — is untouched:
the key's bucket still holds its connection afterwards. -/
theorem c4_delete_all_leaves_pool_untouched :
    (deleteMcp c4Validate c4State "ns1" (some "sk_mt_1") none).1 = 200 ∧
    Assoc.find? "sidA"
      (deleteMcp c4Validate c4State "ns1" (some "sk_mt_1") none).2.streamableHttpSessions
      = none ∧
    Assoc.find? "sidB"
      (deleteMcp c4Validate c4State "ns1" (some "sk_mt_1") none).2.streamableHttpSessions
      = none ∧
    Assoc.find? "sk_mt_1"
      (deleteMcp c4Validate c4State "ns1" (some "sk_mt_1") none).2.pool.activeConnections
      = some ⟨"sk_mt_1", [("srv1", 0)], 0, 0, none, "uuid-1", 1⟩ := by
  refine ⟨by decide, by decide, by decide, by decide⟩

/-- C4 (amended): a DELETE with a valid API key and no `mcp-session-id`
returns 200 and closes every streamable session belonging to that API key —
a subsequent GET with any of the old session ids answers 404 — but the API
key's upstream connections in the pool are **not** torn down: the pool
component of the state is unchanged (the source skips pool cleanup with a
TODO). -/
theorem c4_delete_all_sessions_amended
    (validate : String → Option AuthContext) (st : RouterState)
    (namespaceUuid apiKey : String) (ctx : AuthContext)
    (hv : validate apiKey = some ctx) :
    (deleteMcp validate st namespaceUuid (some apiKey) none).1 = 200 ∧
    (∀ sid e, Assoc.find? sid st.streamableHttpSessions = some e →
      e.apiKey = apiKey →
      Assoc.find? sid
        (deleteMcp validate st namespaceUuid (some apiKey) none).2.streamableHttpSessions
        = none) ∧
    (∀ sid e ns' now, Assoc.find? sid st.streamableHttpSessions = some e →
      e.apiKey = apiKey →
      (getMcp validate (deleteMcp validate st namespaceUuid (some apiKey) none).2
        ns' (some apiKey) (some sid) now).1 = 404) ∧
    (deleteMcp validate st namespaceUuid (some apiKey) none).2.pool = st.pool := by
  simp only [deleteMcp, hv]
  refine ⟨trivial, ?_, ?_, cleanupApiKey_pool st apiKey⟩
  · intro sid e hf he
    exact cleanupApiKey_sessions_gone st apiKey sid e hf he
  · intro sid e ns' now hf he
    have hgone := cleanupApiKey_sessions_gone st apiKey sid e hf he
    simp [getMcp, hv, hgone]

/-- C4 witness: the amended theorem instantiated at the concrete two-session
state of the counterexample. -/
theorem c4_delete_all_sessions_amended_witness :
    (deleteMcp c4Validate c4State "ns1" (some "sk_mt_1") none).1 = 200 ∧
    (∀ sid e, Assoc.find? sid c4State.streamableHttpSessions = some e →
      e.apiKey = "sk_mt_1" →
      Assoc.find? sid
        (deleteMcp c4Validate c4State "ns1" (some "sk_mt_1") none).2.streamableHttpSessions
        = none) ∧
    (∀ sid e ns' now, Assoc.find? sid c4State.streamableHttpSessions = some e →
      e.apiKey = "sk_mt_1" →
      (getMcp c4Validate (deleteMcp c4Validate c4State "ns1" (some "sk_mt_1") none).2
        ns' (some "sk_mt_1") (some sid) now).1 = 404) ∧
    (deleteMcp c4Validate c4State "ns1" (some "sk_mt_1") none).2.pool = c4State.pool :=
  c4_delete_all_sessions_amended c4Validate c4State "ns1" "sk_mt_1"
    ⟨"uuid-1", none⟩ (by decide)

end Router

namespace Stdio

/-- C5 (code bug): the wrapper splits the buffer on the literal two-character
sequence backslash `n` (`split("\\n")`), not on newline.  A JSON-RPC frame
terminated by a real newline and split across two chunks therefore emits
**nothing** — for every classifier the whole input stays in the buffer — where
the claim (and the source's own "Process complete lines" comment) require
exactly one emitted frame.  By contrast a frame terminated by the literal
backslash-`n` pair is split and emitted, pinning the separator the code
actually uses. -/
theorem c5_newline_terminated_frame_never_emitted :
    (∀ isJsonRpc : String → Bool,
      processChunks isJsonRpc ⟨""⟩
        ["\x7b\"jsonrpc\":\"2.0\",\"id\":1,", "\"result\":\x7b\x7d\x7d\n"] =
      (⟨"\x7b\"jsonrpc\":\"2.0\",\"id\":1,\"result\":\x7b\x7d\x7d\n"⟩, [], [])) ∧
    processChunks (fun _ => true) ⟨""⟩ ["line1\\nline2\\n"] =
      (⟨""⟩, ["line1", "line2"], []) := by
  refine ⟨fun _ => rfl, by decide⟩

end Stdio

namespace Agg

/-- C3 counterexample: the list handler lists `srv__read` (it issues
`tools/list` even though the server does not declare `capabilities.tools`),
but the call handler skips servers without that capability, so calling the
listed name fails with the unknown-tool error — list and call are not
round-trip consistent. -/
theorem c3_listed_tool_not_callable :
    listToolNames [c3Server] = ["srv__read"] ∧
    callToolTarget [c3Server] "srv__read" = .error .unknownTool := by
  refine ⟨by decide, by decide⟩

theorem splitFirstSep_append (t : List Char) :
    ∀ (p : List Char), hasSepChars (p ++ ['_']) = false →
      splitFirstSep (p ++ '_' :: '_' :: t) = some (p, t)
  | [], _ => by simp [splitFirstSep]
  | c :: p', h => by
    simp only [List.cons_append, hasSepChars, Bool.or_eq_false_iff] at h
    obtain ⟨h1, h2⟩ := h
    have ih := splitFirstSep_append t p' h2
    simp only [List.cons_append, splitFirstSep]
    rw [if_neg ?_]
    · simp only [List.append_eq]
      rw [ih]
      rfl
    · rintro ⟨hc, hh⟩
      subst hc
      cases p' with
      | nil => simp at h1
      | cons d p'' => simp_all

/-- C3 (amended): a tool listed for a server that (a) declares
`capabilities.tools`, (b) is the first server in mapping order whose
sanitized name matches its prefix, and (c) has a sanitized name free of
double underscores (also when suffixed by one more underscore) resolves back
to the same server with the original tool name.  Without (a) the call
handler skips the listed server, without (b) the call goes to an earlier
namesake, and without (c) the first-`__` split lands inside the server
prefix — see the counterexample for (a). -/
theorem c3_roundtrip_amended
    (servers : List UpstreamServer) (s : UpstreamServer) (t : String)
    (hsession : s.hasSession = true) (hdecl : s.declaresTools = true)
    (htool : t ∈ s.tools)
    (hsep : hasSepChars ((sanitizeName s.name).data ++ ['_']) = false)
    (hfirst : servers.find? (fun s' =>
        s'.hasSession && s'.declaresTools &&
        (sanitizeName s'.name == sanitizeName s.name)) = some s) :
    (sanitizeName s.name ++ "__" ++ t) ∈ listToolNames servers ∧
    callToolTarget servers (sanitizeName s.name ++ "__" ++ t) =
      .ok (s.uuid, t) := by
  have hmem : s ∈ servers := List.mem_of_find?_eq_some hfirst
  constructor
  · unfold listToolNames
    refine List.mem_flatMap.mpr ⟨s, hmem, ?_⟩
    rw [hsession]
    simp only [if_true]
    exact List.mem_map.mpr ⟨t, htool, rfl⟩
  · unfold callToolTarget
    have hdata : (sanitizeName s.name ++ "__" ++ t).data =
        (sanitizeName s.name).data ++ '_' :: '_' :: t.data := by
      simp [String.data_append]
    rw [hdata, splitFirstSep_append t.data _ hsep]
    simp only
    rw [show servers.find? (fun s' =>
        s'.hasSession && s'.declaresTools &&
        (sanitizeName s'.name == String.mk (sanitizeName s.name).data)) = some s
      from hfirst]

/-- C3 witness: the spec's own example — server `File Ops` exposing
`read_file` — instantiated in a one-server namespace; the listed name
`File_Ops__read_file` is present and calls back to that server. -/
theorem c3_roundtrip_amended_witness :
    (sanitizeName "File Ops" ++ "__" ++ "read_file") ∈
        listToolNames [⟨"uuid-2", "File Ops", true, true, ["read_file"]⟩] ∧
    callToolTarget [⟨"uuid-2", "File Ops", true, true, ["read_file"]⟩]
        (sanitizeName "File Ops" ++ "__" ++ "read_file") =
      .ok ("uuid-2", "read_file") :=
  c3_roundtrip_amended [⟨"uuid-2", "File Ops", true, true, ["read_file"]⟩]
    ⟨"uuid-2", "File Ops", true, true, ["read_file"]⟩ "read_file"
    (by decide) (by decide) (by decide) (by decide) (by decide)

end Agg
